import Mathlib

/-!
# The gin development proxy (`lib/proxy.go`)

A shallow embedding of `lib/proxy.go`: the route table kept in the two maps
`proxies` and `to`, route registration (`createProxy`), route resolution
(`matchedURLFrom`), the request dispatcher (`defaultHandler`), the tunnel
(`proxyWebsocket`) and start-up (`Run`).

Conventions of the embedding.

* A Go `map[string]V` is an association list with one entry per key.  A
  `for k := range m` loop visits every entry once in an order the language
  leaves open, so each function that ranges over a map receives the order
  of that visit as an argument, and the theorems quantify over it.
* A Go string is a Lean `String`, compared and sliced as its sequence of
  characters; `len` is its length in UTF-8 bytes.
* Go's `(value, error)` results are pairs whose second component is
  `none` for a `nil` error.
* Pointer-typed map lookups (`p.to[k]`, `p.proxies[k]`) give `none` for the
  `nil` pointer of a missing key.
* Calls that act on the outside world are recorded, in program order, in a
  list of `Effect`s; what the outside world answers (dial, hijack, listen)
  is an argument.
* Functions of the Go standard library are collected in `Stdlib` and taken
  as parameters.
-/

namespace Gin

/-! ## Go maps -/

/-- A Go `map[string]V`: one entry per key. -/
abbrev GoMap (V : Type) := List (String × V)

namespace GoMap

variable {V : Type}

/-- The keys of the map. -/
def keys (m : GoMap V) : List String := m.map Prod.fst

/-- Lookup `m[k]` in its comma-ok form. -/
def get? : GoMap V → String → Option V
  | [], _ => none
  | (k', v) :: rest, k => if k' = k then some v else get? rest k

/-- Assignment `m[k] = v`: the entry of `k` is replaced when there is one and
added otherwise. -/
def set : GoMap V → String → V → GoMap V
  | [], k, v => [(k, v)]
  | (k', v') :: rest, k, v =>
    if k' = k then (k, v) :: rest else (k', v') :: set rest k v

end GoMap

/-! ## Data types -/

/-- The fields of `url.URL` the proxy reads. -/
structure URL where
  Scheme : String
  Host : String
  Path : String
deriving DecidableEq, Repr

/-- An `httputil.ReverseProxy` made by `NewSingleHostReverseProxy`: it is
determined by the target it forwards to. -/
structure ReverseProxy where
  target : URL
deriving DecidableEq, Repr

/-- A `net.Listener`, identified by the address it is bound to. -/
structure Listener where
  addr : String
deriving DecidableEq, Repr

/-- The `Builder` collaborator; `Errors` is what its `Errors()` method
returns. -/
structure Builder where
  Errors : String
deriving DecidableEq, Repr

/-- The `Runner` collaborator; its `Run()` method is recorded as an effect. -/
structure Runner where
  name : String
deriving DecidableEq, Repr

/-- The `Config` fields read by `Run`. -/
structure Config where
  Port : Int
  ProxyTo : GoMap String
deriving DecidableEq, Repr

/-- Functions of the Go standard library called by the proxy. -/
structure Stdlib where
  /-- The function `url.Parse`. -/
  urlParse : String → Except String URL
  /-- The method `(*url.URL).String`, used by the `%v` verb. -/
  urlString : URL → String
  /-- The function `unicode.ToLower`. -/
  toLowerRune : Char → Char

/-- The struct `Proxy`. -/
structure Proxy where
  listener : Option Listener
  proxies : GoMap ReverseProxy
  builder : Builder
  runner : Runner
  «to» : GoMap URL
deriving DecidableEq, Repr

/-- The parts of `http.Request` the proxy reads. -/
structure Request where
  URL : URL
  Header : GoMap (List String)
deriving DecidableEq, Repr

/-- The two directions of the tunnel's copy operations. -/
inductive Direction where
  | clientToBackend
  | backendToClient
deriving DecidableEq, Repr

/-- The two connections a tunnel owns. -/
inductive Conn where
  | client
  | backend
deriving DecidableEq, Repr

/-- The calls and statements recorded in a trace, as they appear in the
code. -/
inductive Effect where
  /-- The call `p.createProxy(matchedUrl, proxyToUrl)`. -/
  | createProxy (matchedUrl proxyToUrl : String)
  /-- The call `res.Write([]byte(body))`. -/
  | write (body : String)
  /-- The call `p.runner.Run()`. -/
  | runnerRun
  /-- The call `p.matchedURLFrom(url)`. -/
  | matchedURLFrom (url : URL)
  /-- The call `proxyWebsocket(res, req, host)`. -/
  | proxyWebsocket (host : Option URL)
  /-- The call `rp.ServeHTTP(res, req)`. -/
  | serveHTTP (rp : Option ReverseProxy)
  /-- A nil pointer dereference: the goroutine panics. -/
  | nilDeref
  /-- The call `net.Dial("tcp", addr)`. -/
  | dial (addr : String)
  /-- The call `http.Error(w, msg, code)`. -/
  | httpError (msg : String) (code : Nat)
  /-- The call `hj.Hijack()`. -/
  | hijack
  /-- The call `r.Write(d)`: the request is serialised onto the backend
  connection. -/
  | requestWrite
  /-- The statement `go cp(dst, src)`. -/
  | copy (dir : Direction)
  /-- The receive `<-errc`. -/
  | awaitFirst
  /-- A deferred `Close()`. -/
  | close (c : Conn)
  /-- The call `net.Listen("tcp", addr)`. -/
  | listen (addr : String)
  /-- The statement `go http.Serve(p.listener, handler)`. -/
  | serve
deriving DecidableEq, Repr

/-! ## Standard library helpers with a fixed meaning -/

/-- The function `strings.HasPrefix`:
`len(s) >= len(pre) && s[:len(pre)] == pre`. -/
def HasPrefix (s pre : String) : Bool :=
  decide (s.data.length ≥ pre.data.length) && (s.data.take pre.data.length == pre.data)

/-- The function `strings.ToLower`: every character is mapped by
`unicode.ToLower`. -/
def ToLower (lib : Stdlib) (s : String) : String :=
  String.mk (s.data.map lib.toLowerRune)

/-- The method `http.Header.Get`: the first value stored under the key, or the
empty string. -/
def HeaderGet (h : GoMap (List String)) (key : String) : String :=
  match h.get? key with
  | some (v :: _) => v
  | _ => ""

/-! ## The proxy -/

/-- The function `NewProxy`. -/
def NewProxy (builder : Builder) (runner : Runner) : Proxy :=
  { listener := none, proxies := [], builder := builder, runner := runner, «to» := [] }

/-- The method `Proxy.createProxy`: the new state of the proxy and the error
returned. -/
def createProxy (lib : Stdlib) (p : Proxy) (matchedUrl proxyToUrl : String) :
    Proxy × Option String :=
  match lib.urlParse proxyToUrl with
  | .error err => (p, some err)
  | .ok url =>
    ({ p with
        proxies := p.proxies.set matchedUrl { target := url }
        «to» := p.«to».set matchedUrl url }, none)

/-- The text of the error made by `matchedURLFrom`. -/
def notMatchedError (lib : Stdlib) (url : URL) : String :=
  "This url is not matched by any proxies (" ++ lib.urlString url ++ ")"

/-- The loop of `matchedURLFrom` over the keys in the order they are visited:
the first key that is a prefix of the path. -/
def firstMatch (path : String) : List String → Option String
  | [] => none
  | mUrl :: rest => if HasPrefix path mUrl then some mUrl else firstMatch path rest

/-- The method `Proxy.matchedURLFrom`; `order` is the order in which the
`range` loop visits the keys of `p.proxies`. -/
def matchedURLFrom (lib : Stdlib) (order : List String) (url : URL) :
    String × Option String :=
  match firstMatch url.Path order with
  | some mUrl => (mUrl, none)
  | none => ("", some (notMatchedError lib url))

/-- What the outside world answers during one call of `proxyWebsocket`. -/
structure TunnelEnv where
  /-- The result of `net.Dial("tcp", addr)`: an error text, or success. -/
  dial : String → Option String
  /-- Whether the response writer implements `http.Hijacker`. -/
  isHijacker : Bool
  /-- The error returned by `hj.Hijack()`, if any. -/
  hijackErr : Option String
  /-- The error returned by `r.Write(d)`, if any. -/
  writeErr : Option String

/-- The function `proxyWebsocket`. The values made by `fmt.Errorf` are
discarded in the code and have no effect. -/
def proxyWebsocket (env : TunnelEnv) (host : Option URL) : List Effect :=
  match host with
  | none => [.nilDeref]
  | some h =>
    match env.dial h.Host with
    | some _ => [.dial h.Host, .httpError "Error contacting backend server." 500]
    | none =>
      if !env.isHijacker then
        [.dial h.Host, .httpError "Not a hijacker?" 500]
      else
        match env.hijackErr with
        | some _ => [.dial h.Host, .hijack]
        | none =>
          match env.writeErr with
          | some _ => [.dial h.Host, .hijack, .requestWrite, .close .backend, .close .client]
          | none =>
            [.dial h.Host, .hijack, .requestWrite,
             .copy .clientToBackend, .copy .backendToClient, .awaitFirst,
             .close .backend, .close .client]

/-- The method call `rp.ServeHTTP(res, req)` on the pointer found in
`p.proxies`: on a nil pointer the first field access panics. -/
def serveHTTP (rp : Option ReverseProxy) : List Effect :=
  match rp with
  | none => [.nilDeref]
  | some _ => []

/-- What the outside world answers during one call of `defaultHandler`. -/
structure HandlerEnv where
  /-- The order in which the `range` loop visits the keys of `p.proxies`. -/
  order : List String
  /-- The answers to the calls made by `proxyWebsocket`. -/
  tunnel : TunnelEnv

/-- The method `Proxy.defaultHandler`: the effects of one request, in
program order. -/
def defaultHandler (lib : Stdlib) (env : HandlerEnv) (p : Proxy) (req : Request) :
    List Effect :=
  let errors := p.builder.Errors
  if errors.utf8ByteSize > 0 then
    [.write errors]
  else
    let r := matchedURLFrom lib env.order req.URL
    let proxyKey := r.1
    let missed : List Effect :=
      match r.2 with
      | some err => [.write err]
      | none => []
    let chosen : List Effect :=
      if ToLower lib (HeaderGet req.Header "Upgrade") == "websocket" ||
          ToLower lib (HeaderGet req.Header "Accept") == "text/event-stream" then
        .proxyWebsocket (p.«to».get? proxyKey) :: proxyWebsocket env.tunnel (p.«to».get? proxyKey)
      else
        .serveHTTP (p.proxies.get? proxyKey) :: serveHTTP (p.proxies.get? proxyKey)
    [.runnerRun, .matchedURLFrom req.URL] ++ missed ++ chosen

/-- What the outside world answers during one call of `Run`. -/
structure RunEnv where
  /-- The order in which the `range` loop visits the entries of
  `config.ProxyTo`. -/
  order : List (String × String)
  /-- The result of `net.Listen("tcp", addr)`. -/
  listen : String → Except String Listener

/-- The loop of `Run` over the entries of `config.ProxyTo` in the order they
are visited; it stops at the first error. The result is the new state of the
proxy, the error and the calls made. -/
def createProxies (lib : Stdlib) (p : Proxy) :
    List (String × String) → Proxy × Option String × List Effect
  | [] => (p, none, [])
  | (matchedUrl, proxyToUrl) :: rest =>
    match createProxy lib p matchedUrl proxyToUrl with
    | (p1, some err) => (p1, some err, [.createProxy matchedUrl proxyToUrl])
    | (p1, none) =>
      let r := createProxies lib p1 rest
      (r.1, r.2.1, .createProxy matchedUrl proxyToUrl :: r.2.2)

/-- The address `fmt.Sprintf(":%d", port)`. -/
def listenAddr (port : Int) : String := ":" ++ toString port

/-- The method `Proxy.Run`: the new state of the proxy, the error returned
and the calls made, in program order. The assignment
`p.listener, err = net.Listen(...)` stores the nil listener when the call
fails. -/
def Run (lib : Stdlib) (env : RunEnv) (p : Proxy) (config : Config) :
    Proxy × Option String × List Effect :=
  match createProxies lib p env.order with
  | (p1, some err, calls) => (p1, some err, calls)
  | (p1, none, calls) =>
    match env.listen (listenAddr config.Port) with
    | .error err =>
      ({ p1 with listener := none }, some err, calls ++ [.listen (listenAddr config.Port)])
    | .ok l =>
      ({ p1 with listener := some l }, none,
        calls ++ [.listen (listenAddr config.Port), .serve])

/-- The order of one `range` loop over the map `m`: every key is visited
once. -/
def RangeOrder {V : Type} (m : GoMap V) (order : List String) : Prop :=
  order.Perm m.keys

/-- The order of one `range` loop over the entries of the map `m`. -/
def RangeEntries {V : Type} (m : GoMap V) (order : List (String × V)) : Prop :=
  order.Perm m

/-- The state of the proxy after a sequence of `createProxy` calls, each
given by its two arguments; failing calls are included. -/
def applyCalls (lib : Stdlib) (p : Proxy) (calls : List (String × String)) : Proxy :=
  calls.foldl (fun q c => (createProxy lib q c.1 c.2).1) p

/-- Equality of two strings ignoring letter case: their lower-case forms are
the same. -/
def EqIgnoringCase (lib : Stdlib) (a b : String) : Prop :=
  ToLower lib a = ToLower lib b

/-- The trace contains a call of `proxyWebsocket`: the request is tunneled. -/
def Tunneled (trace : List Effect) : Prop :=
  ∃ host, Effect.proxyWebsocket host ∈ trace

/-- The trace contains a call of `ServeHTTP` on a reverse proxy: the request
is forwarded. -/
def Forwarded (trace : List Effect) : Prop :=
  ∃ rp, Effect.serveHTTP rp ∈ trace

/-- The requirement the spec puts on a target: the string parses as an
absolute URL, one with a scheme, that has a host. -/
def WellFormedURL (lib : Stdlib) (target : String) : Bool :=
  match lib.urlParse target with
  | .ok u => u.Scheme != "" && u.Host != ""
  | .error _ => false

/-- On the ASCII range `unicode.ToLower` maps `A`-`Z` to `a`-`z` and leaves
every other character as it is. -/
def LowerAscii (lib : Stdlib) : Prop :=
  ∀ c : Char, c.toNat < 128 → lib.toLowerRune c = c.toLower

/-! ## Concrete inputs -/

/-- Splits `scheme://rest` at the first `://`. -/
def splitScheme : List Char → List Char → Option (List Char × List Char)
  | acc, ':' :: '/' :: '/' :: rest => some (acc.reverse, rest)
  | acc, c :: rest => splitScheme (c :: acc) rest
  | _, [] => none

/-- A reduced `url.Parse` for concrete inputs: like Go's, it rejects a string
that starts with a colon (`missing protocol scheme`); otherwise it reads
`scheme://host/path`, and a string without `://` as a path. -/
def sampleParse (raw : String) : Except String URL :=
  match raw.data with
  | ':' :: _ => .error ("parse \"" ++ raw ++ "\": missing protocol scheme")
  | cs =>
    match splitScheme [] cs with
    | some (scheme, rest) =>
      .ok { Scheme := String.mk scheme,
            Host := String.mk (rest.takeWhile (fun c => c != '/')),
            Path := String.mk (rest.dropWhile (fun c => c != '/')) }
    | none => .ok { Scheme := "", Host := "", Path := raw }

/-- A reduced `(*url.URL).String` for concrete inputs. -/
def sampleString (u : URL) : String :=
  (if u.Scheme = "" then "" else u.Scheme ++ "://") ++ u.Host ++ u.Path

/-- An instance of `Stdlib` for concrete inputs; `unicode.ToLower` is given
on the ASCII range. -/
def sampleLib : Stdlib :=
  { urlParse := sampleParse, urlString := sampleString, toLowerRune := Char.toLower }

/-- A builder without build errors. -/
def okBuilder : Builder := { Errors := "" }

/-- A runner. -/
def aRunner : Runner := { name := "runner" }

/-- The route table with the two overlapping prefixes `/` and `/api`. -/
def overlapProxy : Proxy :=
  applyCalls sampleLib (NewProxy okBuilder aRunner)
    [("/", "http://localhost:3001"), ("/api", "http://localhost:3002")]

/-- The route table with the single prefix `/api`. -/
def apiProxy : Proxy :=
  applyCalls sampleLib (NewProxy okBuilder aRunner) [("/api", "http://localhost:3002")]

/-- A request URL with the given path. -/
def pathURL (path : String) : URL := { Scheme := "", Host := "", Path := path }

/-- A tunnel environment in which every call succeeds. -/
def okTunnel : TunnelEnv :=
  { dial := fun _ => none, isHijacker := true, hijackErr := none, writeErr := none }

/-- A tunnel environment in which the dial succeeds and `Hijack()` returns an
error. -/
def hijackFails : TunnelEnv :=
  { dial := fun _ => none, isHijacker := true, hijackErr := some "http: connection has been hijacked",
    writeErr := none }

/-- A configuration whose second target does not parse. -/
def badConfig : Config :=
  { Port := 3000, ProxyTo := [("/api", "http://localhost:3002"), ("/b", "::not a url::")] }

/-- A configuration whose targets all parse. -/
def goodConfig : Config :=
  { Port := 3000, ProxyTo := [("/api", "http://localhost:3002"), ("/", "http://localhost:3001")] }

/-- A start-up environment that visits the entries in the given order and in
which `net.Listen` succeeds. -/
def listenOk (order : List (String × String)) : RunEnv :=
  { order := order, listen := fun addr => .ok { addr := addr } }

/-! ## Lemmas on maps, prefixes and route resolution -/

theorem HasPrefix_iff (s pre : String) :
    HasPrefix s pre = true ↔ pre.data <+: s.data := by
  unfold HasPrefix
  rw [List.prefix_iff_eq_take]
  constructor
  · intro h
    simp only [Bool.and_eq_true, decide_eq_true_eq, beq_iff_eq] at h
    exact h.2.symm
  · intro h
    simp only [Bool.and_eq_true, decide_eq_true_eq, beq_iff_eq]
    refine ⟨?_, h.symm⟩
    have hl := congrArg List.length h
    rw [List.length_take] at hl
    omega

theorem firstMatch_some {path : String} {l : List String} {k : String}
    (h : firstMatch path l = some k) : k ∈ l ∧ HasPrefix path k = true := by
  induction l with
  | nil => simp [firstMatch] at h
  | cons a rest ih =>
    unfold firstMatch at h
    by_cases ha : HasPrefix path a = true
    · rw [if_pos ha] at h
      cases h
      exact ⟨List.mem_cons_self _ _, ha⟩
    · rw [if_neg ha] at h
      exact ⟨List.mem_cons_of_mem _ (ih h).1, (ih h).2⟩

theorem firstMatch_none_iff (path : String) (l : List String) :
    firstMatch path l = none ↔ ∀ k ∈ l, HasPrefix path k = false := by
  induction l with
  | nil => simp [firstMatch]
  | cons a rest ih =>
    unfold firstMatch
    by_cases ha : HasPrefix path a = true
    · rw [if_pos ha]
      simp [ha]
    · rw [if_neg ha, ih]
      simp only [Bool.not_eq_true] at ha
      simp [ha]

theorem firstMatch_unique {path : String} {l₁ l₂ : List String}
    (hmem : ∀ k, k ∈ l₁ ↔ k ∈ l₂)
    (huniq : ∀ a ∈ l₁, ∀ b ∈ l₁, HasPrefix path a = true → HasPrefix path b = true → a = b) :
    firstMatch path l₁ = firstMatch path l₂ := by
  cases h₁ : firstMatch path l₁ with
  | none =>
    symm
    rw [firstMatch_none_iff] at h₁ ⊢
    intro k hk
    exact h₁ k ((hmem k).2 hk)
  | some a =>
    cases h₂ : firstMatch path l₂ with
    | none =>
      rw [firstMatch_none_iff] at h₂
      have ha := firstMatch_some h₁
      have := h₂ a ((hmem a).1 ha.1)
      rw [ha.2] at this
      cases this
    | some b =>
      have ha := firstMatch_some h₁
      have hb := firstMatch_some h₂
      rw [huniq a ha.1 b ((hmem b).2 hb.1) ha.2 hb.2]

theorem firstMatch_none_congr (path : String) {l₁ l₂ : List String}
    (hmem : ∀ k, k ∈ l₁ ↔ k ∈ l₂) :
    firstMatch path l₁ = none ↔ firstMatch path l₂ = none := by
  rw [firstMatch_none_iff, firstMatch_none_iff]
  exact ⟨fun h k hk => h k ((hmem k).2 hk), fun h k hk => h k ((hmem k).1 hk)⟩

theorem matchedURLFrom_of_some (lib : Stdlib) {order : List String} {url : URL} {k : String}
    (h : firstMatch url.Path order = some k) : matchedURLFrom lib order url = (k, none) := by
  unfold matchedURLFrom
  rw [h]

theorem matchedURLFrom_of_none (lib : Stdlib) {order : List String} {url : URL}
    (h : firstMatch url.Path order = none) :
    matchedURLFrom lib order url = ("", some (notMatchedError lib url)) := by
  unfold matchedURLFrom
  rw [h]

theorem firstMatch_of_ok {lib : Stdlib} {order : List String} {url : URL} {k : String}
    (h : matchedURLFrom lib order url = (k, none)) : firstMatch url.Path order = some k := by
  cases hf : firstMatch url.Path order with
  | none =>
    rw [matchedURLFrom_of_none lib hf] at h
    cases h
  | some a =>
    rw [matchedURLFrom_of_some lib hf] at h
    cases h
    rfl

theorem firstMatch_of_err {lib : Stdlib} {order : List String} {url : URL}
    (h : (matchedURLFrom lib order url).2 ≠ none) : firstMatch url.Path order = none := by
  cases hf : firstMatch url.Path order with
  | none => rfl
  | some a =>
    rw [matchedURLFrom_of_some lib hf] at h
    exact absurd rfl h

theorem GoMap.mem_keys_set {V : Type} (m : GoMap V) (k : String) (v : V) (k' : String) :
    k' ∈ (m.set k v).keys ↔ k' = k ∨ k' ∈ m.keys := by
  induction m with
  | nil => simp [GoMap.set, GoMap.keys]
  | cons e rest ih =>
    obtain ⟨a, b⟩ := e
    unfold GoMap.set
    by_cases h : a = k
    · rw [if_pos h]
      subst h
      simp [GoMap.keys]
    · rw [if_neg h]
      have ih' : k' ∈ List.map Prod.fst (GoMap.set rest k v) ↔
          k' = k ∨ k' ∈ List.map Prod.fst rest := ih
      simp only [GoMap.keys, List.map_cons, List.mem_cons, ih']
      tauto

theorem GoMap.get?_isSome_iff {V : Type} (m : GoMap V) (k : String) :
    (m.get? k).isSome = true ↔ k ∈ m.keys := by
  induction m with
  | nil => simp [GoMap.get?, GoMap.keys]
  | cons e rest ih =>
    obtain ⟨a, b⟩ := e
    unfold GoMap.get?
    have ih' : (GoMap.get? rest k).isSome = true ↔ k ∈ List.map Prod.fst rest := ih
    by_cases h : a = k
    · rw [if_pos h]
      simp [GoMap.keys, h]
    · rw [if_neg h, ih']
      simp only [GoMap.keys, List.map_cons, List.mem_cons]
      constructor
      · intro h'
        exact Or.inr h'
      · rintro (h' | h')
        · exact absurd h'.symm h
        · exact h'

theorem GoMap.get?_set_self {V : Type} (m : GoMap V) (k : String) (v : V) :
    (m.set k v).get? k = some v := by
  induction m with
  | nil => simp [GoMap.set, GoMap.get?]
  | cons e rest ih =>
    obtain ⟨a, b⟩ := e
    unfold GoMap.set
    by_cases h : a = k
    · rw [if_pos h]
      simp [GoMap.get?]
    · rw [if_neg h]
      unfold GoMap.get?
      rw [if_neg h]
      exact ih

theorem createProxy_keys (lib : Stdlib) (p : Proxy) (a b : String)
    (h : ∀ k, k ∈ p.proxies.keys ↔ k ∈ p.«to».keys) :
    ∀ k, k ∈ (createProxy lib p a b).1.proxies.keys ↔ k ∈ (createProxy lib p a b).1.«to».keys := by
  intro k
  unfold createProxy
  cases lib.urlParse b with
  | error e => exact h k
  | ok u =>
    show k ∈ (p.proxies.set a _).keys ↔ k ∈ (p.«to».set a u).keys
    rw [GoMap.mem_keys_set, GoMap.mem_keys_set, h k]

theorem applyCalls_keys (lib : Stdlib) (calls : List (String × String)) (p : Proxy)
    (h : ∀ k, k ∈ p.proxies.keys ↔ k ∈ p.«to».keys) :
    ∀ k, k ∈ (applyCalls lib p calls).proxies.keys ↔ k ∈ (applyCalls lib p calls).«to».keys := by
  induction calls generalizing p with
  | nil => exact h
  | cons c rest ih =>
    exact ih (createProxy lib p c.1 c.2).1 (createProxy_keys lib p c.1 c.2 h)

/-! ## Route resolution -/

/-- C1: route resolution is sound. For every route table and every order in
which the loop visits its keys, a prefix returned by `matchedURLFrom` without
an error is a key of the table (its lookup succeeds) and the request path
starts with it. -/
theorem matchedURLFrom_sound (lib : Stdlib) (p : Proxy) (order : List String) (url : URL)
    (k : String) (horder : RangeOrder p.proxies order)
    (hres : matchedURLFrom lib order url = (k, none)) :
    k ∈ p.proxies.keys ∧ (p.proxies.get? k).isSome = true ∧ k.data <+: url.Path.data := by
  unfold matchedURLFrom at hres
  cases hf : firstMatch url.Path order with
  | none =>
    rw [hf] at hres
    simp at hres
  | some a =>
    rw [hf] at hres
    have hak : a = k := congrArg Prod.fst hres
    subst hak
    have ha := firstMatch_some hf
    have hmem : a ∈ p.proxies.keys := horder.mem_iff.1 ha.1
    exact ⟨hmem, (GoMap.get?_isSome_iff _ _).2 hmem, (HasPrefix_iff _ _).1 ha.2⟩

/-- Witness of C1: the table with `/` and `/api`, visited in that order, and
the path `/api/x`. -/
theorem matchedURLFrom_sound_witness :
    RangeOrder overlapProxy.proxies ["/", "/api"] ∧
    matchedURLFrom sampleLib ["/", "/api"] (pathURL "/api/x") = ("/", none) ∧
    ("/" ∈ overlapProxy.proxies.keys ∧ (overlapProxy.proxies.get? "/").isSome = true ∧
      "/".data <+: (pathURL "/api/x").Path.data) :=
  ⟨List.Perm.refl _, by decide,
    matchedURLFrom_sound sampleLib overlapProxy ["/", "/api"] (pathURL "/api/x") "/"
      (List.Perm.refl _) (by decide)⟩

/-- C2: route resolution fails exactly when nothing matches. For every route
table, every order of the loop and every request path, `matchedURLFrom`
returns an error if and only if no key of the table is a prefix of the path;
an error comes with the empty string and the text made from the URL; when some
key is a prefix of the path there is no error; on the empty table there is
always an error. -/
theorem matchedURLFrom_error_iff (lib : Stdlib) (p : Proxy) (order : List String) (url : URL)
    (horder : RangeOrder p.proxies order) :
    ((matchedURLFrom lib order url).2 ≠ none ↔
        ∀ k ∈ p.proxies.keys, ¬ k.data <+: url.Path.data) ∧
    ((matchedURLFrom lib order url).2 ≠ none →
        matchedURLFrom lib order url = ("", some (notMatchedError lib url))) ∧
    ((∃ k ∈ p.proxies.keys, k.data <+: url.Path.data) →
        (matchedURLFrom lib order url).2 = none) ∧
    (p.proxies = [] → (matchedURLFrom lib order url).2 ≠ none) := by
  have hiff : (matchedURLFrom lib order url).2 ≠ none ↔
      ∀ k ∈ p.proxies.keys, ¬ k.data <+: url.Path.data := by
    unfold matchedURLFrom
    cases hf : firstMatch url.Path order with
    | none =>
      rw [firstMatch_none_iff] at hf
      simp only [ne_eq, reduceCtorEq, not_false_eq_true, true_iff]
      intro k hk hpre
      have := hf k (horder.mem_iff.2 hk)
      rw [(HasPrefix_iff _ _).2 hpre] at this
      cases this
    | some a =>
      have ha := firstMatch_some hf
      simp only [ne_eq, not_true_eq_false, false_iff]
      intro hall
      exact hall a (horder.mem_iff.1 ha.1) ((HasPrefix_iff _ _).1 ha.2)
  refine ⟨hiff, ?_, ?_, ?_⟩
  · unfold matchedURLFrom
    cases hf : firstMatch url.Path order with
    | none => intro _; rfl
    | some a => intro h; exact absurd rfl h
  · rintro ⟨k, hk, hpre⟩
    by_contra hne
    exact hiff.1 hne k hk hpre
  · intro hempty
    rw [hiff, hempty]
    intro k hk
    simp [GoMap.keys] at hk

/-- Witness of C2: the table with the single prefix `/api`. -/
theorem matchedURLFrom_error_iff_witness :
    RangeOrder apiProxy.proxies ["/api"] ∧
    matchedURLFrom sampleLib ["/api"] (pathURL "/x") =
      ("", some "This url is not matched by any proxies (/x)") ∧
    (matchedURLFrom sampleLib ["/api"] (pathURL "/api/x")).2 = none ∧
    ((matchedURLFrom sampleLib ["/api"] (pathURL "/x")).2 ≠ none ↔
        ∀ k ∈ apiProxy.proxies.keys, ¬ k.data <+: (pathURL "/x").Path.data) :=
  ⟨List.Perm.refl _, by decide, by decide,
    (matchedURLFrom_error_iff sampleLib apiProxy ["/api"] (pathURL "/x") (List.Perm.refl _)).1⟩

/-- Counterexample to C3: the table registered with the prefixes `/` and `/api`
has the two visiting orders `/`, `/api` and `/api`, `/`; on the path `/api/x`
the first resolves to `/` and the second to `/api`. -/
theorem matchedURLFrom_order_dependent :
    RangeOrder overlapProxy.proxies ["/", "/api"] ∧
    RangeOrder overlapProxy.proxies ["/api", "/"] ∧
    matchedURLFrom sampleLib ["/", "/api"] (pathURL "/api/x") = ("/", none) ∧
    matchedURLFrom sampleLib ["/api", "/"] (pathURL "/api/x") = ("/api", none) ∧
    (matchedURLFrom sampleLib ["/", "/api"] (pathURL "/api/x")).1 ≠
      (matchedURLFrom sampleLib ["/api", "/"] (pathURL "/api/x")).1 :=
  ⟨List.Perm.refl _, List.Perm.swap _ _ _, by decide, by decide, by decide⟩

/-- C3, amended: for two visiting orders of the same table, `matchedURLFrom`
fails under one exactly when it fails under the other, a returned prefix is in
both cases a key of the table that is a prefix of the path, and when at most
one key of the table is a prefix of the path the two results are equal. -/
theorem matchedURLFrom_deterministic_of_unique (lib : Stdlib) (p : Proxy)
    (o₁ o₂ : List String) (url : URL)
    (h₁ : RangeOrder p.proxies o₁) (h₂ : RangeOrder p.proxies o₂) :
    ((matchedURLFrom lib o₁ url).2 = none ↔ (matchedURLFrom lib o₂ url).2 = none) ∧
    ((matchedURLFrom lib o₁ url).2 = none →
        (matchedURLFrom lib o₁ url).1 ∈ p.proxies.keys ∧
        (matchedURLFrom lib o₁ url).1.data <+: url.Path.data) ∧
    ((∀ a ∈ p.proxies.keys, ∀ b ∈ p.proxies.keys,
        a.data <+: url.Path.data → b.data <+: url.Path.data → a = b) →
      matchedURLFrom lib o₁ url = matchedURLFrom lib o₂ url) := by
  have hmem : ∀ k, k ∈ o₁ ↔ k ∈ o₂ := fun k => h₁.mem_iff.trans h₂.mem_iff.symm
  refine ⟨?_, ?_, ?_⟩
  · have hcongr := firstMatch_none_congr url.Path hmem
    cases hf₁ : firstMatch url.Path o₁ with
    | none =>
      rw [matchedURLFrom_of_none lib hf₁, matchedURLFrom_of_none lib (hcongr.1 hf₁)]
    | some a =>
      cases hf₂ : firstMatch url.Path o₂ with
      | none =>
        rw [hcongr.2 hf₂] at hf₁
        cases hf₁
      | some b =>
        rw [matchedURLFrom_of_some lib hf₁, matchedURLFrom_of_some lib hf₂]
  · intro hnone
    cases hf₁ : firstMatch url.Path o₁ with
    | none =>
      rw [matchedURLFrom_of_none lib hf₁] at hnone
      cases hnone
    | some a =>
      rw [matchedURLFrom_of_some lib hf₁]
      have ha := firstMatch_some hf₁
      exact ⟨h₁.mem_iff.1 ha.1, (HasPrefix_iff _ _).1 ha.2⟩
  · intro huniq
    have hfm : firstMatch url.Path o₁ = firstMatch url.Path o₂ := by
      apply firstMatch_unique hmem
      intro a ha b hb hpa hpb
      exact huniq a (h₁.mem_iff.1 ha) b (h₁.mem_iff.1 hb)
        ((HasPrefix_iff _ _).1 hpa) ((HasPrefix_iff _ _).1 hpb)
    unfold matchedURLFrom
    rw [hfm]

/-- Witness of C3 as amended: the table with `/` and `/api` and the path `/x`,
of which only `/` is a prefix. -/
theorem matchedURLFrom_deterministic_of_unique_witness :
    RangeOrder overlapProxy.proxies ["/", "/api"] ∧
    RangeOrder overlapProxy.proxies ["/api", "/"] ∧
    matchedURLFrom sampleLib ["/", "/api"] (pathURL "/x") = ("/", none) ∧
    matchedURLFrom sampleLib ["/api", "/"] (pathURL "/x") = ("/", none) ∧
    ((matchedURLFrom sampleLib ["/", "/api"] (pathURL "/x")).2 = none ↔
      (matchedURLFrom sampleLib ["/api", "/"] (pathURL "/x")).2 = none) :=
  ⟨List.Perm.refl _, List.Perm.swap _ _ _, by decide, by decide,
    (matchedURLFrom_deterministic_of_unique sampleLib overlapProxy ["/", "/api"] ["/api", "/"]
      (pathURL "/x") (List.Perm.refl _) (List.Perm.swap _ _ _)).1⟩

/-! ## Route registration -/

/-- Counterexample to C4: the target `not a url` is not a well-formed URL, it
has neither scheme nor host, yet `url.Parse` accepts it as a path; so
`createProxy` returns no error and stores, in both maps, a route with an empty
host under the prefix, also where the prefix had a route before. -/
theorem createProxy_registers_not_a_url :
    WellFormedURL sampleLib "not a url" = false ∧
    sampleLib.urlParse "not a url" = .ok { Scheme := "", Host := "", Path := "not a url" } ∧
    (createProxy sampleLib (NewProxy okBuilder aRunner) "/new" "not a url").2 = none ∧
    (createProxy sampleLib (NewProxy okBuilder aRunner) "/new" "not a url").1.proxies =
      [("/new", { target := { Scheme := "", Host := "", Path := "not a url" } })] ∧
    (createProxy sampleLib (NewProxy okBuilder aRunner) "/new" "not a url").1.«to» =
      [("/new", { Scheme := "", Host := "", Path := "not a url" })] ∧
    (createProxy sampleLib apiProxy "/api" "not a url").2 = none ∧
    (createProxy sampleLib apiProxy "/api" "not a url").1.«to».get? "/api" =
      some { Scheme := "", Host := "", Path := "not a url" } ∧
    (createProxy sampleLib apiProxy "/api" "not a url").1.«to» ≠ apiProxy.«to» :=
  ⟨rfl, rfl, rfl, by decide, by decide, rfl, by decide, by decide⟩

/-- C4, amended: a target that `url.Parse` rejects is rejected as a whole, and
only such a target is rejected. `createProxy` returns an error exactly when
`url.Parse` returns one for the target; it is then that error, and the proxy,
so both maps `proxies` and `to`, is left as it was: for the given prefix no
route is added and none is overwritten. When `url.Parse` accepts the target,
`createProxy` returns no error and both maps hold the parsed URL under the
prefix; a well-formed URL is among the accepted targets. -/
theorem createProxy_rejects_iff_parse_error (lib : Stdlib) (p : Proxy)
    (matchedUrl proxyToUrl : String) :
    ((createProxy lib p matchedUrl proxyToUrl).2 ≠ none ↔
      ∃ err, lib.urlParse proxyToUrl = .error err) ∧
    (∀ err, lib.urlParse proxyToUrl = .error err →
      (createProxy lib p matchedUrl proxyToUrl).2 = some err ∧
      (createProxy lib p matchedUrl proxyToUrl).1 = p ∧
      (createProxy lib p matchedUrl proxyToUrl).1.proxies = p.proxies ∧
      (createProxy lib p matchedUrl proxyToUrl).1.«to» = p.«to» ∧
      (createProxy lib p matchedUrl proxyToUrl).1.proxies.get? matchedUrl =
        p.proxies.get? matchedUrl ∧
      (createProxy lib p matchedUrl proxyToUrl).1.«to».get? matchedUrl =
        p.«to».get? matchedUrl) ∧
    (∀ u, lib.urlParse proxyToUrl = .ok u →
      (createProxy lib p matchedUrl proxyToUrl).2 = none ∧
      (createProxy lib p matchedUrl proxyToUrl).1.proxies.get? matchedUrl =
        some { target := u } ∧
      (createProxy lib p matchedUrl proxyToUrl).1.«to».get? matchedUrl = some u) ∧
    (WellFormedURL lib proxyToUrl = true →
      (createProxy lib p matchedUrl proxyToUrl).2 = none) := by
  have herr : ∀ err, lib.urlParse proxyToUrl = .error err →
      createProxy lib p matchedUrl proxyToUrl = (p, some err) := by
    intro err h
    unfold createProxy
    rw [h]
  have hok : ∀ u, lib.urlParse proxyToUrl = .ok u →
      createProxy lib p matchedUrl proxyToUrl =
        ({ p with
            proxies := p.proxies.set matchedUrl { target := u }
            «to» := p.«to».set matchedUrl u }, none) := by
    intro u h
    unfold createProxy
    rw [h]
  refine ⟨?_, ?_, ?_, ?_⟩
  · cases hp : lib.urlParse proxyToUrl with
    | error err =>
      rw [herr err hp]
      exact ⟨fun _ => ⟨err, rfl⟩, fun _ h => by cases h⟩
    | ok u =>
      rw [hok u hp]
      constructor
      · intro h
        exact absurd rfl h
      · rintro ⟨err, h⟩
        cases h
  · intro err h
    rw [herr err h]
    exact ⟨rfl, rfl, rfl, rfl, rfl, rfl⟩
  · intro u h
    rw [hok u h]
    exact ⟨rfl, GoMap.get?_set_self _ _ _, GoMap.get?_set_self _ _ _⟩
  · intro hwf
    cases hp : lib.urlParse proxyToUrl with
    | error err =>
      unfold WellFormedURL at hwf
      rw [hp] at hwf
      cases hwf
    | ok u => rw [hok u hp]

/-- Witness of C4 as amended: the target `::not a url::`, which `url.Parse`
rejects, registered under `/api` (a prefix that has a route) and under `/new`
(a prefix that has none); and the well-formed target
`http://localhost:3003`. -/
theorem createProxy_rejects_iff_parse_error_witness :
    sampleLib.urlParse "::not a url::" =
      .error "parse \"::not a url::\": missing protocol scheme" ∧
    (createProxy sampleLib apiProxy "/api" "::not a url::").2 =
      some "parse \"::not a url::\": missing protocol scheme" ∧
    (createProxy sampleLib apiProxy "/api" "::not a url::").1 = apiProxy ∧
    (createProxy sampleLib apiProxy "/new" "::not a url::").1.proxies.get? "/new" = none ∧
    WellFormedURL sampleLib "http://localhost:3003" = true ∧
    (createProxy sampleLib apiProxy "/new" "http://localhost:3003").2 = none :=
  ⟨rfl,
    ((createProxy_rejects_iff_parse_error sampleLib apiProxy "/api" "::not a url::").2.1 _
      rfl).1,
    ((createProxy_rejects_iff_parse_error sampleLib apiProxy "/api" "::not a url::").2.1 _
      rfl).2.1,
    by decide,
    by decide,
    (createProxy_rejects_iff_parse_error sampleLib apiProxy "/new"
      "http://localhost:3003").2.2.2 (by decide)⟩

/-! ## The dispatcher -/

theorem utf8ByteSize_pos_iff (s : String) : s.utf8ByteSize > 0 ↔ s ≠ "" := by
  obtain ⟨l⟩ := s
  cases l with
  | nil => simp [String.utf8ByteSize, String.utf8ByteSize.go]
  | cons c cs =>
    have hc := Char.utf8Size_pos c
    have hne : String.mk (c :: cs) ≠ "" := by
      intro h
      have := congrArg String.data h
      simp at this
    simp only [String.utf8ByteSize, String.utf8ByteSize.go, gt_iff_lt, ne_eq, hne,
      not_false_eq_true, iff_true]
    omega

theorem defaultHandler_build_error_aux (lib : Stdlib) (env : HandlerEnv) (p : Proxy)
    (req : Request) (herr : p.builder.Errors ≠ "") :
    defaultHandler lib env p req = [.write p.builder.Errors] := by
  unfold defaultHandler
  simp only [(utf8ByteSize_pos_iff _).2 herr, if_true]

/-- C5: build errors short-circuit the request. When the builder reports a
non-empty error string, the only effect of `defaultHandler` is to write that
string as the response body: the runner is not called, no route is resolved,
and neither a reverse proxy nor `proxyWebsocket` is invoked. -/
theorem defaultHandler_build_error (lib : Stdlib) (env : HandlerEnv) (p : Proxy) (req : Request)
    (herr : p.builder.Errors ≠ "") :
    defaultHandler lib env p req = [.write p.builder.Errors] ∧
    Effect.runnerRun ∉ defaultHandler lib env p req ∧
    (∀ url, Effect.matchedURLFrom url ∉ defaultHandler lib env p req) ∧
    ¬ Forwarded (defaultHandler lib env p req) ∧
    ¬ Tunneled (defaultHandler lib env p req) := by
  have h := defaultHandler_build_error_aux lib env p req herr
  rw [h]
  refine ⟨rfl, by simp, by simp, ?_, ?_⟩
  · rintro ⟨rp, hrp⟩
    simp at hrp
  · rintro ⟨host, hh⟩
    simp at hh

/-- Witness of C5: a builder that reports `build failed`, and a request for a
path that has a route. -/
theorem defaultHandler_build_error_witness :
    ({ apiProxy with builder := { Errors := "build failed" } } : Proxy).builder.Errors ≠ "" ∧
    defaultHandler sampleLib { order := ["/api"], tunnel := okTunnel }
      { apiProxy with builder := { Errors := "build failed" } }
      { URL := pathURL "/api/x", Header := [("Upgrade", ["websocket"])] } =
      [.write "build failed"] :=
  ⟨by decide,
    (defaultHandler_build_error sampleLib { order := ["/api"], tunnel := okTunnel }
      { apiProxy with builder := { Errors := "build failed" } }
      { URL := pathURL "/api/x", Header := [("Upgrade", ["websocket"])] } (by decide)).1⟩

theorem defaultHandler_miss (lib : Stdlib) (env : HandlerEnv) (p : Proxy) (req : Request)
    (hgate : p.builder.Errors = "") (horder : RangeOrder p.proxies env.order)
    (hkeys : ∀ k, k ∈ p.proxies.keys ↔ k ∈ p.«to».keys)
    (hmiss : (matchedURLFrom lib env.order req.URL).2 ≠ none) :
    defaultHandler lib env p req =
      [.runnerRun, .matchedURLFrom req.URL, .write (notMatchedError lib req.URL),
       .serveHTTP none, .nilDeref] ∨
    defaultHandler lib env p req =
      [.runnerRun, .matchedURLFrom req.URL, .write (notMatchedError lib req.URL),
       .proxyWebsocket none, .nilDeref] := by
  have hf := firstMatch_of_err hmiss
  have hres := matchedURLFrom_of_none lib hf
  have hnokey : "" ∉ p.proxies.keys := by
    intro hin
    have hno := (firstMatch_none_iff _ _).1 hf "" (horder.mem_iff.2 hin)
    rw [(HasPrefix_iff req.URL.Path "").2 List.nil_prefix] at hno
    cases hno
  have hp : p.proxies.get? "" = none := by
    cases hg : p.proxies.get? "" with
    | none => rfl
    | some v =>
      exact absurd ((GoMap.get?_isSome_iff _ _).1 (by rw [hg]; rfl)) hnokey
  have ht : p.«to».get? "" = none := by
    cases hg : p.«to».get? "" with
    | none => rfl
    | some v =>
      exact absurd ((hkeys "").2 ((GoMap.get?_isSome_iff _ _).1 (by rw [hg]; rfl))) hnokey
  have hz : ¬ ("" : String).utf8ByteSize > 0 := by decide
  unfold defaultHandler
  simp only [hgate, hz, if_false, hres, hp, ht]
  split
  · exact Or.inr rfl
  · exact Or.inl rfl

/-- C6, the code at a routing miss: with no build errors, the table holding
only `/api` and the path `/x`, `defaultHandler` writes the error text and then
goes on to the dispatch with the empty key: the lookup `p.proxies[""]` gives
the nil pointer, `ServeHTTP` is called on it and the handler panics. With an
`Upgrade: websocket` header it is `proxyWebsocket` that is called with the nil
target of `p.to[""]`, and panics. -/
theorem defaultHandler_miss_falls_through :
    defaultHandler sampleLib { order := ["/api"], tunnel := okTunnel } apiProxy
      { URL := pathURL "/x", Header := [] } =
      [.runnerRun, .matchedURLFrom (pathURL "/x"),
       .write "This url is not matched by any proxies (/x)",
       .serveHTTP none, .nilDeref] ∧
    defaultHandler sampleLib { order := ["/api"], tunnel := okTunnel } apiProxy
      { URL := pathURL "/x", Header := [("Upgrade", ["websocket"])] } =
      [.runnerRun, .matchedURLFrom (pathURL "/x"),
       .write "This url is not matched by any proxies (/x)",
       .proxyWebsocket none, .nilDeref] :=
  ⟨by decide, by decide⟩

/-! ## The tunnel -/

/-- C8, the code when the client transport cannot be seized, after a dial
that succeeded. When the response writer is not a `Hijacker` the effects are
the dial and a 500 response. When `Hijack()` returns an error the effects are
the dial and the `Hijack()` call alone: no response is written. In neither
case is the request written to the backend or a copy started. -/
theorem proxyWebsocket_hijack_failure (host : URL) (herr : String)
    (hijackErr writeErr : Option String) :
    proxyWebsocket
      { dial := fun _ => none, isHijacker := false, hijackErr := hijackErr, writeErr := writeErr }
      (some host) = [.dial host.Host, .httpError "Not a hijacker?" 500] ∧
    proxyWebsocket
      { dial := fun _ => none, isHijacker := true, hijackErr := some herr, writeErr := writeErr }
      (some host) = [.dial host.Host, .hijack] ∧
    (∀ msg code, Effect.httpError msg code ∉ proxyWebsocket
      { dial := fun _ => none, isHijacker := true, hijackErr := some herr, writeErr := writeErr }
      (some host)) := by
  refine ⟨rfl, rfl, ?_⟩
  intro msg code h
  simp [proxyWebsocket] at h

/-! ## Traffic classification -/

theorem ToLower_ascii (lib : Stdlib) (hlow : LowerAscii lib) (s : String)
    (hs : ∀ c ∈ s.data, c.toNat < 128) : ToLower lib s = ToLower sampleLib s := by
  unfold ToLower
  congr 1
  exact List.map_congr_left (fun c hc => hlow c (hs c hc))

theorem ToLower_websocket (lib : Stdlib) (hlow : LowerAscii lib) :
    ToLower lib "websocket" = "websocket" := by
  rw [ToLower_ascii lib hlow "websocket" (by decide)]
  decide

theorem ToLower_WebSocket (lib : Stdlib) (hlow : LowerAscii lib) :
    ToLower lib "WebSocket" = "websocket" := by
  rw [ToLower_ascii lib hlow "WebSocket" (by decide)]
  decide

theorem ToLower_eventStream (lib : Stdlib) (hlow : LowerAscii lib) :
    ToLower lib "text/event-stream" = "text/event-stream" := by
  rw [ToLower_ascii lib hlow "text/event-stream" (by decide)]
  decide

theorem proxyWebsocket_no_dispatch (env : TunnelEnv) (host : Option URL) :
    (∀ rp, Effect.serveHTTP rp ∉ proxyWebsocket env host) ∧
    (∀ h, Effect.proxyWebsocket h ∉ proxyWebsocket env host) := by
  constructor <;> intro x hx <;> unfold proxyWebsocket at hx <;>
    split at hx <;> (try split at hx) <;> (try split at hx) <;> (try split at hx) <;>
    (try split at hx) <;> simp at hx

theorem serveHTTP_no_dispatch (rp : Option ReverseProxy) :
    (∀ r, Effect.serveHTTP r ∉ serveHTTP rp) ∧
    (∀ h, Effect.proxyWebsocket h ∉ serveHTTP rp) := by
  constructor <;> intro x hx <;> cases rp <;> simp [serveHTTP] at hx

theorem defaultHandler_routed (lib : Stdlib) (env : HandlerEnv) (p : Proxy) (req : Request)
    (hgate : p.builder.Errors = "")
    (hroute : (matchedURLFrom lib env.order req.URL).2 = none) :
    defaultHandler lib env p req =
      [.runnerRun, .matchedURLFrom req.URL] ++
      (if ToLower lib (HeaderGet req.Header "Upgrade") = "websocket" ∨
          ToLower lib (HeaderGet req.Header "Accept") = "text/event-stream" then
        .proxyWebsocket (p.«to».get? (matchedURLFrom lib env.order req.URL).1) ::
          proxyWebsocket env.tunnel (p.«to».get? (matchedURLFrom lib env.order req.URL).1)
      else
        .serveHTTP (p.proxies.get? (matchedURLFrom lib env.order req.URL).1) ::
          serveHTTP (p.proxies.get? (matchedURLFrom lib env.order req.URL).1)) := by
  have hz : ¬ ("" : String).utf8ByteSize > 0 := by decide
  unfold defaultHandler
  simp only [hgate, hz, if_false, hroute, List.append_nil, Bool.or_eq_true, beq_iff_eq]

/-- C7: traffic classification. For a request that passed the build gate and
resolved a route, `defaultHandler` calls `proxyWebsocket`, with the target of
the resolved prefix, if and only if the `Upgrade` value equals `websocket`
ignoring letter case or the `Accept` value equals `text/event-stream` ignoring
letter case; it calls `ServeHTTP` on the reverse proxy of the resolved prefix
if and only if neither is the case. An `Upgrade` value of `WebSocket` or of
`websocket` is tunneled, and so is an `Accept` value of `text/event-stream`
without an `Upgrade` header. -/
theorem defaultHandler_classification (lib : Stdlib) (env : HandlerEnv) (p : Proxy)
    (req : Request) (hlow : LowerAscii lib) (hgate : p.builder.Errors = "")
    (hroute : (matchedURLFrom lib env.order req.URL).2 = none) :
    (Tunneled (defaultHandler lib env p req) ↔
      (EqIgnoringCase lib (HeaderGet req.Header "Upgrade") "websocket" ∨
       EqIgnoringCase lib (HeaderGet req.Header "Accept") "text/event-stream")) ∧
    (Forwarded (defaultHandler lib env p req) ↔
      ¬ (EqIgnoringCase lib (HeaderGet req.Header "Upgrade") "websocket" ∨
         EqIgnoringCase lib (HeaderGet req.Header "Accept") "text/event-stream")) ∧
    (Tunneled (defaultHandler lib env p req) →
      Effect.proxyWebsocket (p.«to».get? (matchedURLFrom lib env.order req.URL).1) ∈
        defaultHandler lib env p req) ∧
    (Forwarded (defaultHandler lib env p req) →
      Effect.serveHTTP (p.proxies.get? (matchedURLFrom lib env.order req.URL).1) ∈
        defaultHandler lib env p req) ∧
    (HeaderGet req.Header "Upgrade" = "WebSocket" → Tunneled (defaultHandler lib env p req)) ∧
    (HeaderGet req.Header "Upgrade" = "websocket" → Tunneled (defaultHandler lib env p req)) ∧
    (req.Header.get? "Upgrade" = none → HeaderGet req.Header "Accept" = "text/event-stream" →
      Tunneled (defaultHandler lib env p req)) := by
  have hshape := defaultHandler_routed lib env p req hgate hroute
  have hcond : (ToLower lib (HeaderGet req.Header "Upgrade") = "websocket" ∨
      ToLower lib (HeaderGet req.Header "Accept") = "text/event-stream") ↔
      (EqIgnoringCase lib (HeaderGet req.Header "Upgrade") "websocket" ∨
       EqIgnoringCase lib (HeaderGet req.Header "Accept") "text/event-stream") := by
    unfold EqIgnoringCase
    rw [ToLower_websocket lib hlow, ToLower_eventStream lib hlow]
  have hT : Tunneled (defaultHandler lib env p req) ↔
      (ToLower lib (HeaderGet req.Header "Upgrade") = "websocket" ∨
       ToLower lib (HeaderGet req.Header "Accept") = "text/event-stream") := by
    rw [hshape]
    unfold Tunneled
    by_cases hc : ToLower lib (HeaderGet req.Header "Upgrade") = "websocket" ∨
        ToLower lib (HeaderGet req.Header "Accept") = "text/event-stream"
    · rw [if_pos hc]
      simp only [hc, iff_true]
      exact ⟨p.«to».get? (matchedURLFrom lib env.order req.URL).1, by simp⟩
    · rw [if_neg hc]
      simp only [hc, iff_false]
      rintro ⟨h, hh⟩
      have := (serveHTTP_no_dispatch
        (p.proxies.get? (matchedURLFrom lib env.order req.URL).1)).2 h
      simp at hh
      exact this hh
  have hF : Forwarded (defaultHandler lib env p req) ↔
      ¬ (ToLower lib (HeaderGet req.Header "Upgrade") = "websocket" ∨
         ToLower lib (HeaderGet req.Header "Accept") = "text/event-stream") := by
    rw [hshape]
    unfold Forwarded
    by_cases hc : ToLower lib (HeaderGet req.Header "Upgrade") = "websocket" ∨
        ToLower lib (HeaderGet req.Header "Accept") = "text/event-stream"
    · rw [if_pos hc]
      simp only [hc, not_true_eq_false, iff_false]
      rintro ⟨r, hr⟩
      have := (proxyWebsocket_no_dispatch env.tunnel
        (p.«to».get? (matchedURLFrom lib env.order req.URL).1)).1 r
      simp at hr
      exact this hr
    · rw [if_neg hc]
      simp only [hc, not_false_eq_true, iff_true]
      exact ⟨p.proxies.get? (matchedURLFrom lib env.order req.URL).1, by simp⟩
  refine ⟨hT.trans hcond, hF.trans (not_congr hcond), ?_, ?_, ?_, ?_, ?_⟩
  · intro ht
    rw [hshape, if_pos (hT.1 ht)]
    simp
  · intro hf
    rw [hshape, if_neg (hF.1 hf)]
    simp
  · intro hu
    refine hT.2 (Or.inl ?_)
    rw [hu, ToLower_WebSocket lib hlow]
  · intro hu
    refine hT.2 (Or.inl ?_)
    rw [hu, ToLower_websocket lib hlow]
  · intro _ ha
    refine hT.2 (Or.inr ?_)
    rw [ha, ToLower_eventStream lib hlow]

/-- Witness of C7: a request for `/api/x` with `Upgrade: WebSocket` against
the table holding `/api`. -/
theorem defaultHandler_classification_witness :
    LowerAscii sampleLib ∧ apiProxy.builder.Errors = "" ∧
    (matchedURLFrom sampleLib ["/api"] (pathURL "/api/x")).2 = none ∧
    Tunneled (defaultHandler sampleLib { order := ["/api"], tunnel := okTunnel } apiProxy
      { URL := pathURL "/api/x", Header := [("Upgrade", ["WebSocket"])] }) ∧
    defaultHandler sampleLib { order := ["/api"], tunnel := okTunnel } apiProxy
      { URL := pathURL "/api/x", Header := [("Accept", ["text/html"])] } =
      [.runnerRun, .matchedURLFrom (pathURL "/api/x"),
       .serveHTTP (some { target := { Scheme := "http", Host := "localhost:3002", Path := "" } })] :=
  ⟨fun _ _ => rfl, rfl, by decide,
    (defaultHandler_classification sampleLib { order := ["/api"], tunnel := okTunnel } apiProxy
      { URL := pathURL "/api/x", Header := [("Upgrade", ["WebSocket"])] }
      (fun _ _ => rfl) rfl (by decide)).2.2.2.2.1 (by decide),
    by decide⟩

/-! ## Start-up -/

theorem createProxy_listener (lib : Stdlib) (p : Proxy) (a b : String) :
    (createProxy lib p a b).1.listener = p.listener := by
  unfold createProxy
  cases lib.urlParse b <;> rfl

theorem createProxies_listener (lib : Stdlib) (l : List (String × String)) (p : Proxy) :
    (createProxies lib p l).1.listener = p.listener := by
  induction l generalizing p with
  | nil => rfl
  | cons e rest ih =>
    obtain ⟨a, b⟩ := e
    have hl := createProxy_listener lib p a b
    unfold createProxies
    rcases hc : createProxy lib p a b with ⟨p1, _ | err⟩
    · rw [hc] at hl
      simp only
      rw [ih p1]
      exact hl
    · rw [hc] at hl
      exact hl

theorem createProxies_ok (lib : Stdlib) (l : List (String × String)) (p : Proxy)
    (h : ∀ e ∈ l, ∃ u, lib.urlParse e.2 = .ok u) :
    (createProxies lib p l).2.1 = none ∧
    (createProxies lib p l).2.2 = l.map (fun e => Effect.createProxy e.1 e.2) ∧
    (∀ k, k ∈ (createProxies lib p l).1.proxies.keys ↔ k ∈ p.proxies.keys ∨ k ∈ l.map Prod.fst) ∧
    (∀ k, k ∈ (createProxies lib p l).1.«to».keys ↔ k ∈ p.«to».keys ∨ k ∈ l.map Prod.fst) := by
  induction l generalizing p with
  | nil => exact ⟨rfl, rfl, by simp [createProxies], by simp [createProxies]⟩
  | cons e rest ih =>
    obtain ⟨a, b⟩ := e
    obtain ⟨u, hu⟩ := h (a, b) (List.mem_cons_self _ _)
    have hrest : ∀ e ∈ rest, ∃ u, lib.urlParse e.2 = .ok u :=
      fun e he => h e (List.mem_cons_of_mem _ he)
    have hc : createProxy lib p a b =
        ({ p with proxies := p.proxies.set a { target := u }, «to» := p.«to».set a u }, none) := by
      unfold createProxy
      rw [show lib.urlParse b = .ok u from hu]
    have ih' := ih { p with proxies := p.proxies.set a { target := u }, «to» := p.«to».set a u } hrest
    unfold createProxies
    rw [hc]
    simp only
    refine ⟨ih'.1, ?_, ?_, ?_⟩
    · rw [ih'.2.1]
      rfl
    · intro k
      rw [ih'.2.2.1 k, GoMap.mem_keys_set]
      simp only [List.map_cons, List.mem_cons]
      tauto
    · intro k
      rw [ih'.2.2.2 k, GoMap.mem_keys_set]
      simp only [List.map_cons, List.mem_cons]
      tauto

theorem createProxies_err (lib : Stdlib) (l : List (String × String)) (p : Proxy)
    (h : ∃ e ∈ l, ∃ err, lib.urlParse e.2 = .error err) :
    ∃ e ∈ l, ∃ err, lib.urlParse e.2 = .error err ∧
      (createProxies lib p l).2.1 = some err ∧
      (∀ x ∈ (createProxies lib p l).2.2, ∃ a b, x = Effect.createProxy a b) := by
  induction l generalizing p with
  | nil =>
    obtain ⟨e, he, _⟩ := h
    cases he
  | cons e rest ih =>
    obtain ⟨a, b⟩ := e
    cases hp : lib.urlParse b with
    | error err =>
      refine ⟨(a, b), List.mem_cons_self _ _, err, hp, ?_, ?_⟩
      · simp only [createProxies, createProxy, hp]
      · simp only [createProxies, createProxy, hp]
        intro x hx
        simp only [List.mem_singleton] at hx
        exact ⟨a, b, hx⟩
    | ok u =>
      have hrest : ∃ e ∈ rest, ∃ err, lib.urlParse e.2 = .error err := by
        obtain ⟨e, he, err, herr⟩ := h
        rcases List.mem_cons.1 he with rfl | he'
        · rw [show lib.urlParse b = .ok u from hp] at herr
          cases herr
        · exact ⟨e, he', err, herr⟩
      obtain ⟨e, he, err, herr, hres, hcalls⟩ :=
        ih { p with proxies := p.proxies.set a { target := u }, «to» := p.«to».set a u } hrest
      refine ⟨e, List.mem_cons_of_mem _ he, err, herr, ?_, ?_⟩
      · simp only [createProxies, createProxy, hp]
        exact hres
      · simp only [createProxies, createProxy, hp]
        intro x hx
        rcases List.mem_cons.1 hx with rfl | hx'
        · exact ⟨a, b, rfl⟩
        · exact hcalls x hx'

/-- C9: start-up fails fast on a bad configuration. When some configured
target fails to parse, `Run` returns the parse error of a configured target,
makes no call of `net.Listen`, does not start `http.Serve` and leaves the
listener field as it was. When every configured target parses, `Run` calls
`createProxy` once for every configured entry and only then `net.Listen`,
followed by `http.Serve` when the listener was bound; the keys of both maps
are then those the table had before together with the configured prefixes,
which for a table made by `NewProxy` are the configured prefixes alone. -/
theorem Run_fail_fast (lib : Stdlib) (env : RunEnv) (p : Proxy) (config : Config)
    (horder : RangeEntries config.ProxyTo env.order) :
    ((∃ e ∈ config.ProxyTo, ∃ err, lib.urlParse e.2 = .error err) →
      ∃ e ∈ config.ProxyTo, ∃ err, lib.urlParse e.2 = .error err ∧
        (Run lib env p config).2.1 = some err ∧
        (∀ addr, Effect.listen addr ∉ (Run lib env p config).2.2) ∧
        Effect.serve ∉ (Run lib env p config).2.2 ∧
        (Run lib env p config).1.listener = p.listener) ∧
    ((∀ e ∈ config.ProxyTo, ∃ u, lib.urlParse e.2 = .ok u) →
      (∀ k, k ∈ (Run lib env p config).1.proxies.keys ↔
        k ∈ p.proxies.keys ∨ k ∈ config.ProxyTo.keys) ∧
      (∀ k, k ∈ (Run lib env p config).1.«to».keys ↔
        k ∈ p.«to».keys ∨ k ∈ config.ProxyTo.keys) ∧
      (p.proxies = [] → ∀ k, k ∈ (Run lib env p config).1.proxies.keys ↔
        k ∈ config.ProxyTo.keys) ∧
      ((Run lib env p config).2.2 =
          env.order.map (fun e => Effect.createProxy e.1 e.2) ++
            [.listen (listenAddr config.Port)] ∨
        (Run lib env p config).2.2 =
          env.order.map (fun e => Effect.createProxy e.1 e.2) ++
            [.listen (listenAddr config.Port), .serve])) := by
  have hmem : ∀ e, e ∈ env.order ↔ e ∈ config.ProxyTo := fun e => List.Perm.mem_iff horder
  have hkeys : ∀ k, k ∈ env.order.map Prod.fst ↔ k ∈ config.ProxyTo.keys := fun k =>
    List.Perm.mem_iff (List.Perm.map Prod.fst horder)
  constructor
  · rintro ⟨e, he, err, herr⟩
    obtain ⟨e', he', err', herr', hres, hcalls⟩ :=
      createProxies_err lib env.order p ⟨e, (hmem e).2 he, err, herr⟩
    have hlis := createProxies_listener lib env.order p
    refine ⟨e', (hmem e').1 he', err', herr', ?_⟩
    unfold Run
    rcases hc : createProxies lib p env.order with ⟨p1, _ | er, calls⟩
    · rw [hc] at hres
      cases hres
    · rw [hc] at hres hcalls hlis
      simp only at hres hcalls hlis ⊢
      refine ⟨hres, ?_, ?_, hlis⟩
      · intro addr hin
        obtain ⟨a, b, hab⟩ := hcalls _ hin
        cases hab
      · intro hin
        obtain ⟨a, b, hab⟩ := hcalls _ hin
        cases hab
  · intro hall
    obtain ⟨hnone, hcalls, hk1, hk2⟩ :=
      createProxies_ok lib env.order p (fun e he => hall e ((hmem e).1 he))
    have hrun : (Run lib env p config).1.proxies = (createProxies lib p env.order).1.proxies ∧
        (Run lib env p config).1.«to» = (createProxies lib p env.order).1.«to» ∧
        ((Run lib env p config).2.2 =
            (createProxies lib p env.order).2.2 ++ [.listen (listenAddr config.Port)] ∨
          (Run lib env p config).2.2 =
            (createProxies lib p env.order).2.2 ++
              [.listen (listenAddr config.Port), .serve]) := by
      unfold Run
      rcases hc : createProxies lib p env.order with ⟨p1, _ | er, calls⟩
      · cases env.listen (listenAddr config.Port) with
        | error err => exact ⟨rfl, rfl, Or.inl rfl⟩
        | ok l => exact ⟨rfl, rfl, Or.inr rfl⟩
      · rw [hc] at hnone
        cases hnone
    obtain ⟨hp, ht, htrace⟩ := hrun
    rw [hcalls] at htrace
    refine ⟨?_, ?_, ?_, htrace⟩
    · intro k
      rw [hp, hk1 k, hkeys k]
    · intro k
      rw [ht, hk2 k, hkeys k]
    · intro hempty k
      rw [hp, hk1 k, hkeys k, hempty]
      simp [GoMap.keys]

/-- Witness of C9: a configuration with the target `::not a url::`, and one
whose targets all parse, visited in reverse order. -/
theorem Run_fail_fast_witness :
    RangeEntries badConfig.ProxyTo badConfig.ProxyTo ∧
    (∃ e ∈ badConfig.ProxyTo, ∃ err, sampleLib.urlParse e.2 = .error err ∧
      (Run sampleLib (listenOk badConfig.ProxyTo) (NewProxy okBuilder aRunner) badConfig).2.1 =
        some err ∧
      (∀ addr, Effect.listen addr ∉
        (Run sampleLib (listenOk badConfig.ProxyTo) (NewProxy okBuilder aRunner) badConfig).2.2) ∧
      Effect.serve ∉
        (Run sampleLib (listenOk badConfig.ProxyTo) (NewProxy okBuilder aRunner) badConfig).2.2 ∧
      (Run sampleLib (listenOk badConfig.ProxyTo) (NewProxy okBuilder aRunner) badConfig).1.listener =
        (NewProxy okBuilder aRunner).listener) ∧
    (Run sampleLib (listenOk goodConfig.ProxyTo.reverse) (NewProxy okBuilder aRunner)
        goodConfig).2.2 =
      [.createProxy "/" "http://localhost:3001", .createProxy "/api" "http://localhost:3002",
       .listen ":3000", .serve] :=
  ⟨List.Perm.refl _,
    (Run_fail_fast sampleLib (listenOk badConfig.ProxyTo) (NewProxy okBuilder aRunner) badConfig
      (List.Perm.refl _)).1 ⟨("/b", "::not a url::"), by decide, _, rfl⟩,
    by decide⟩

/-! ## Consistency of the route table -/

theorem proxyWebsocket_some_no_nilDeref (env : TunnelEnv) (h : URL) :
    Effect.nilDeref ∉ proxyWebsocket env (some h) := by
  intro hx
  unfold proxyWebsocket at hx
  simp only at hx
  split at hx <;> (try split at hx) <;> (try split at hx) <;> (try split at hx) <;> simp at hx

/-- C10: consistency of the route table. After `NewProxy` and any sequence of
`createProxy` calls, failing ones included, the maps `proxies` and `to` have
the same keys. So for every prefix that `matchedURLFrom` returns without an
error both lookups `p.proxies[prefix]` and `p.to[prefix]` find an entry, and
`defaultHandler`, on a request whose route resolved, never dispatches on a
missing entry and never dereferences a nil pointer. -/
theorem route_table_consistent (lib : Stdlib) (builder : Builder) (runner : Runner)
    (calls : List (String × String)) :
    (∀ k, k ∈ (applyCalls lib (NewProxy builder runner) calls).proxies.keys ↔
      k ∈ (applyCalls lib (NewProxy builder runner) calls).«to».keys) ∧
    (∀ order url k,
      RangeOrder (applyCalls lib (NewProxy builder runner) calls).proxies order →
      matchedURLFrom lib order url = (k, none) →
      ((applyCalls lib (NewProxy builder runner) calls).proxies.get? k).isSome = true ∧
      ((applyCalls lib (NewProxy builder runner) calls).«to».get? k).isSome = true) ∧
    (∀ env req,
      RangeOrder (applyCalls lib (NewProxy builder runner) calls).proxies env.order →
      (matchedURLFrom lib env.order req.URL).2 = none →
      Effect.serveHTTP none ∉
        defaultHandler lib env (applyCalls lib (NewProxy builder runner) calls) req ∧
      Effect.proxyWebsocket none ∉
        defaultHandler lib env (applyCalls lib (NewProxy builder runner) calls) req ∧
      Effect.nilDeref ∉
        defaultHandler lib env (applyCalls lib (NewProxy builder runner) calls) req) := by
  have hkeys := applyCalls_keys lib calls (NewProxy builder runner) (fun k => Iff.rfl)
  have hlook : ∀ order url k,
      RangeOrder (applyCalls lib (NewProxy builder runner) calls).proxies order →
      matchedURLFrom lib order url = (k, none) →
      ((applyCalls lib (NewProxy builder runner) calls).proxies.get? k).isSome = true ∧
      ((applyCalls lib (NewProxy builder runner) calls).«to».get? k).isSome = true := by
    intro order url k horder hres
    have hk : k ∈ (applyCalls lib (NewProxy builder runner) calls).proxies.keys :=
      horder.mem_iff.1 (firstMatch_some (firstMatch_of_ok hres)).1
    exact ⟨(GoMap.get?_isSome_iff _ _).2 hk, (GoMap.get?_isSome_iff _ _).2 ((hkeys k).1 hk)⟩
  refine ⟨hkeys, hlook, ?_⟩
  intro env req horder hroute
  by_cases hgate : (applyCalls lib (NewProxy builder runner) calls).builder.Errors = ""
  · have hl := hlook env.order req.URL (matchedURLFrom lib env.order req.URL).1 horder
      (Prod.ext rfl hroute)
    obtain ⟨rp, hrp⟩ := Option.isSome_iff_exists.1 hl.1
    obtain ⟨u, hu⟩ := Option.isSome_iff_exists.1 hl.2
    rw [defaultHandler_routed lib env _ req hgate hroute, hrp, hu]
    have hnd := proxyWebsocket_no_dispatch env.tunnel (some u)
    have hnn := proxyWebsocket_some_no_nilDeref env.tunnel u
    split
    · refine ⟨?_, ?_, ?_⟩
      · intro hin
        simp only [List.cons_append, List.nil_append, List.mem_cons, reduceCtorEq,
          false_or] at hin
        exact hnd.1 none hin
      · intro hin
        simp only [List.cons_append, List.nil_append, List.mem_cons, reduceCtorEq,
          Effect.proxyWebsocket.injEq, false_or] at hin
        exact hnd.2 none hin
      · intro hin
        simp only [List.cons_append, List.nil_append, List.mem_cons, reduceCtorEq,
          false_or] at hin
        exact hnn hin
    · simp [serveHTTP]
  · have hb := (defaultHandler_build_error_aux lib env _ req hgate)
    rw [hb]
    simp

/-- Witness of C10: the calls registering `/` and `/api`, with a failing call
in between, and a tunneled request for `/api/x`. -/
theorem route_table_consistent_witness :
    RangeOrder (applyCalls sampleLib (NewProxy okBuilder aRunner)
      [("/", "http://localhost:3001"), ("/bad", "::not a url::"),
       ("/api", "http://localhost:3002")]).proxies ["/api", "/"] ∧
    matchedURLFrom sampleLib ["/api", "/"] (pathURL "/api/x") = ("/api", none) ∧
    (((applyCalls sampleLib (NewProxy okBuilder aRunner)
      [("/", "http://localhost:3001"), ("/bad", "::not a url::"),
       ("/api", "http://localhost:3002")]).proxies.get? "/api").isSome = true ∧
     ((applyCalls sampleLib (NewProxy okBuilder aRunner)
      [("/", "http://localhost:3001"), ("/bad", "::not a url::"),
       ("/api", "http://localhost:3002")]).«to».get? "/api").isSome = true) :=
  ⟨List.Perm.swap _ _ _, by decide,
    (route_table_consistent sampleLib okBuilder aRunner
      [("/", "http://localhost:3001"), ("/bad", "::not a url::"),
       ("/api", "http://localhost:3002")]).2.1 ["/api", "/"] (pathURL "/api/x") "/api"
      (List.Perm.swap _ _ _) (by decide)⟩

end Gin
